import Mathlib

set_option maxHeartbeats 1000000

/-! Formal model of the tricorder `messages` package (metric value
representations and the conversions between the JSON form and the Go-RPC
form) and of the public `healthserver` setters, with proofs of the
specified properties.  Structures and exported functions are translated
from the source; the bodies of the unexported helpers that the source
only declares (`convertToGoRPC`, `convertToJson`, `SafeZeroValue`,
`setHealth`, `setReady`) are modelled from the specification, as marked
on each such definition. -/

/-- The `types.Type` enumeration of metric value kinds, exactly the kinds
listed in the Kind/SubType chart of the `messages.Metric` documentation. -/
inductive TType where
  | Bool
  | Int8
  | Int16
  | Int32
  | Int64
  | Uint8
  | Uint16
  | Uint32
  | Uint64
  | Float32
  | Float64
  | String
  | Dist
  | Time
  | Duration
  | GoTime
  | GoDuration
  | List
  | Unknown
  deriving DecidableEq

/-- IEEE-754 bit pattern of a Go float32/float64 value.  No operation of
this fragment ever interprets these bits arithmetically, so the raw
pattern is the whole observable state of a float payload. -/
abbrev F64 := Nat

/-- RangeWithCount represents the number of values within a particular
range (`messages.RangeWithCount`): lower bound, upper bound, count. -/
structure RangeWithCount where
  Lower : F64
  Upper : F64
  Count : Nat
  deriving DecidableEq

/-- Distribution represents a distribution of values
(`messages.Distribution`). -/
structure Distribution where
  Min : F64
  Max : F64
  Average : F64
  Median : F64
  Sum : F64
  Count : Nat
  Generation : Nat
  IsNotCumulative : Bool
  Ranges : List RangeWithCount
  deriving DecidableEq

/-- The possible concrete payloads of the `interface{}`-typed fields of a
`messages.Metric` (`Value` and `TimeStamp`), one constructor per actual
Go type listed in the Kind/SubType chart.  Go `time.Time` is represented
by its count of nanoseconds since the epoch, `time.Duration` by its
nanosecond count; both are unbounded here since no arithmetic overflows
are exercised.  `vNil` is the nil interface value. -/
inductive GoVal where
  | vNil
  | vBool (b : Bool)
  | vInt8 (n : Int)
  | vInt16 (n : Int)
  | vInt32 (n : Int)
  | vInt64 (n : Int)
  | vUint8 (n : Nat)
  | vUint16 (n : Nat)
  | vUint32 (n : Nat)
  | vUint64 (n : Nat)
  | vFloat32 (bits : F64)
  | vFloat64 (bits : F64)
  | vString (s : String)
  | vDist (d : Option Distribution)
  | vGoTime (ns : Int)
  | vGoDuration (ns : Int)
  | vListBool (xs : List Bool)
  | vListInt8 (xs : List Int)
  | vListInt16 (xs : List Int)
  | vListInt32 (xs : List Int)
  | vListInt64 (xs : List Int)
  | vListUint8 (xs : List Nat)
  | vListUint16 (xs : List Nat)
  | vListUint32 (xs : List Nat)
  | vListUint64 (xs : List Nat)
  | vListFloat32 (xs : List F64)
  | vListFloat64 (xs : List F64)
  | vListString (xs : List String)
  | vListGoTime (xs : List Int)
  | vListGoDuration (xs : List Int)
  deriving DecidableEq

/-- Metric represents a single metric (`messages.Metric`).  `Unit` is the
opaque `units.Unit` tag (a string-valued enumeration in the library). -/
structure Metric where
  Path : String
  Description : String
  Unit : String
  Kind : TType
  SubType : TType
  Bits : Int
  Value : GoVal
  TimeStamp : GoVal
  GroupId : Int
  deriving DecidableEq

/-- The sentinel returned by `MetricServer.GetMetric` when no metric with
the given path exists (`messages.ErrMetricNotFound`).  Errors are
modelled by their message text. -/
def ErrMetricNotFound : String := "messages: No metric found."

/-- Error text used by the conversion model for a Kind/SubType
combination outside the dispatch table. -/
def errUnsupported : String := "messages: unsupported kind"

/-- Error text used by the conversion model for a time or duration
string that deviates from the exact wire format. -/
def errMalformed : String := "messages: malformed time or duration literal"

/-- Decimal value of a digit character; 10 for any non-digit character. -/
def digitVal (c : Char) : Nat :=
  match c with
  | '0' => 0
  | '1' => 1
  | '2' => 2
  | '3' => 3
  | '4' => 4
  | '5' => 5
  | '6' => 6
  | '7' => 7
  | '8' => 8
  | '9' => 9
  | _ => 10

/-- Whether a character is a decimal digit. -/
def isDig (c : Char) : Bool := decide (digitVal c < 10)

/-- The decimal digit character for a value below ten. -/
def digitChar (d : Nat) : Char :=
  match d with
  | 0 => '0'
  | 1 => '1'
  | 2 => '2'
  | 3 => '3'
  | 4 => '4'
  | 5 => '5'
  | 6 => '6'
  | 7 => '7'
  | 8 => '8'
  | _ => '9'

/-- Numeric value of a most-significant-first digit string, accumulator
form. -/
def digitsValAux (a : Nat) : List Char → Nat
  | [] => a
  | c :: l => digitsValAux (a * 10 + digitVal c) l

/-- Numeric value of a most-significant-first digit string. -/
def digitsVal (l : List Char) : Nat := digitsValAux 0 l

/-- Most-significant-first decimal digits of `n`, with an explicit fuel
bound on the digit count (correct whenever `n < 10 ^ fuel`). -/
def natDigitsAux (fuel n : Nat) : List Char :=
  match fuel with
  | 0 => []
  | fuel + 1 =>
    if n < 10 then [digitChar n]
    else natDigitsAux fuel (n / 10) ++ [digitChar (n % 10)]

/-- Most-significant-first decimal digits of `n` (at least one digit). -/
def natDigits (n : Nat) : List Char := natDigitsAux (n + 1) n

/-- Left-pad a digit string with zeros to exactly nine digits. -/
def pad9 (l : List Char) : List Char := List.replicate (9 - l.length) '0' ++ l

/-- Split a character list at its first decimal point; `none` when no
decimal point occurs. -/
def splitDot : List Char → Option (List Char × List Char)
  | [] => none
  | c :: l =>
    if c = '.' then some ([], l)
    else
      match splitDot l with
      | some p => some (c :: p.1, p.2)
      | none => none

/-- Parse an unsigned `"<seconds>.<9-digit fraction>"` literal into its
nanosecond count: there must be exactly one decimal point, at least one
digit before it, exactly nine digits after it, and nothing but digits on
either side. -/
def decodeUnsigned (l : List Char) : Option Nat :=
  match splitDot l with
  | none => none
  | some (ip, fp) =>
    if !ip.isEmpty && ip.all isDig && decide (fp.length = 9) && fp.all isDig then
      some (digitsVal ip * 10 ^ 9 + digitsVal fp)
    else none

/-- Render a (possibly negative) nanosecond count in the wire format:
optional leading minus sign, decimal seconds, one point, exactly nine
fraction digits. -/
def encodeChars (ns : Int) : List Char :=
  (if ns < 0 then ['-'] else []) ++
    natDigits (ns.natAbs / 10 ^ 9) ++ '.' :: pad9 (natDigitsAux 9 (ns.natAbs % 10 ^ 9))

/-- Parse a signed wire-format literal into its nanosecond count. -/
def decodeChars (l : List Char) : Option Int :=
  if l.head? = some '-' then
    match decodeUnsigned l.tail with
    | some n => some (-(n : Int))
    | none => none
  else
    match decodeUnsigned l with
    | some n => some ((n : Int))
    | none => none

/-- Modelled from the spec: the Time/Duration string encoding used by the
missing conversion bodies (`convertToGoRPC`/`convertToJson` are declared
but not defined under src); seconds since the epoch (resp. seconds of
duration) with exactly nine digits after the decimal point, sign on the
whole string. -/
def goTimeEncode (ns : Int) : String := String.mk (encodeChars ns)

/-- Modelled from the spec: the exact-format parse of a Time/Duration
string used by the missing `convertToGoRPC` body; any deviation from the
format yields `none`. -/
def goTimeDecode (s : String) : Option Int := decodeChars s.data

/-- Whether a string is a canonical wire-format literal, i.e. one the
encoder can produce. -/
def canonB (s : String) : Bool :=
  match goTimeDecode s with
  | some ns => goTimeEncode ns == s
  | none => false

/-- Parse every element of a list of wire-format literals; `none` when
any element is malformed. -/
def decodeAll : List String → Option (List Int)
  | [] => some []
  | s :: ss =>
    match goTimeDecode s, decodeAll ss with
    | some n, some ns => some (n :: ns)
    | _, _ => none

/-- Modelled from the spec: the scalar kinds of the dispatch table, whose
payload is the same language-native scalar in both representations. -/
def scalarKind : TType → Bool
  | .Bool | .Int8 | .Int16 | .Int32 | .Int64
  | .Uint8 | .Uint16 | .Uint32 | .Uint64
  | .Float32 | .Float64 | .String => true
  | _ => false

/-- Modelled from the spec: the element kinds admitted for the List rows
of the dispatch table. -/
def listElemKindOK : TType → Bool
  | .Time | .Duration => true
  | st => scalarKind st

/-- Modelled from the spec: membership of a Kind/SubType pair in the
conversion dispatch table of section 4.2 (SubType is the unset `Unknown`
for every non-List row). -/
def inDispatchTable (k st : TType) : Bool :=
  if k = TType.List then listElemKindOK st
  else if k = TType.Unknown then false
  else if k = TType.GoTime then false
  else if k = TType.GoDuration then false
  else decide (st = TType.Unknown)

/-- Modelled from the spec: the Time case of the missing
`convertToGoRPC` body; the JSON payload must be a string in the exact
wire format and becomes a native `time.Time`. -/
def strToGoTime : GoVal → Except String GoVal
  | .vString s =>
    match goTimeDecode s with
    | some ns => Except.ok (GoVal.vGoTime ns)
    | none => Except.error errMalformed
  | _ => Except.error errMalformed

/-- Modelled from the spec: the Duration case of the missing
`convertToGoRPC` body. -/
def strToGoDuration : GoVal → Except String GoVal
  | .vString s =>
    match goTimeDecode s with
    | some ns => Except.ok (GoVal.vGoDuration ns)
    | none => Except.error errMalformed
  | _ => Except.error errMalformed

/-- Modelled from the spec: the List/Time case of the missing
`convertToGoRPC` body; order preserved, any malformed element fails the
whole conversion. -/
def strListToGoTime : GoVal → Except String GoVal
  | .vListString ss =>
    match decodeAll ss with
    | some ns => Except.ok (GoVal.vListGoTime ns)
    | none => Except.error errMalformed
  | _ => Except.error errMalformed

/-- Modelled from the spec: the List/Duration case of the missing
`convertToGoRPC` body. -/
def strListToGoDuration : GoVal → Except String GoVal
  | .vListString ss =>
    match decodeAll ss with
    | some ns => Except.ok (GoVal.vListGoDuration ns)
    | none => Except.error errMalformed
  | _ => Except.error errMalformed

/-- Modelled from the spec: the Time case of the missing `convertToJson`
body; a native `time.Time` becomes the wire-format string, anything else
is left as it is since the exported `ConvertToJson` returns no error. -/
def goTimeToStr : GoVal → GoVal
  | .vGoTime ns => GoVal.vString (goTimeEncode ns)
  | v => v

/-- Modelled from the spec: the Duration case of the missing
`convertToJson` body. -/
def goDurationToStr : GoVal → GoVal
  | .vGoDuration ns => GoVal.vString (goTimeEncode ns)
  | v => v

/-- Modelled from the spec: the List/Time case of the missing
`convertToJson` body; order preserved. -/
def goTimeListToStr : GoVal → GoVal
  | .vListGoTime ns => GoVal.vListString (ns.map goTimeEncode)
  | v => v

/-- Modelled from the spec: the List/Duration case of the missing
`convertToJson` body. -/
def goDurationListToStr : GoVal → GoVal
  | .vListGoDuration ns => GoVal.vListString (ns.map goTimeEncode)
  | v => v

/-- Modelled from the spec: the value dispatch of the missing
`convertToGoRPC` body.  A pair outside the dispatch table fails with the
unsupported-kind error; Time/Duration payloads (and lists of them) are
parsed from the exact wire format; every other payload of the table is
the same in both representations and passes through unchanged. -/
def convertValueToGoRPC (k st : TType) (v : GoVal) : Except String GoVal :=
  if inDispatchTable k st = true then
    if k = TType.Time then strToGoTime v
    else if k = TType.Duration then strToGoDuration v
    else if k = TType.List ∧ st = TType.Time then strListToGoTime v
    else if k = TType.List ∧ st = TType.Duration then strListToGoDuration v
    else Except.ok v
  else Except.error errUnsupported

/-- Modelled from the spec: the value dispatch of the missing
`convertToJson` body.  The exported `ConvertToJson` returns no error, so
this direction is total: native time-like payloads are rendered as wire
strings and everything else is left unchanged. -/
def convertValueToJson (k st : TType) (v : GoVal) : GoVal :=
  if k = TType.Time then goTimeToStr v
  else if k = TType.Duration then goDurationToStr v
  else if k = TType.List ∧ st = TType.Time then goTimeListToStr v
  else if k = TType.List ∧ st = TType.Duration then goDurationListToStr v
  else v

/-- Modelled from the spec: the TimeStamp handling of the missing
`convertToGoRPC` body; the empty string and the nil interface both mean
an absent timestamp and stay absent, any other payload must be a
wire-format string and becomes a native `time.Time`. -/
def tsToGoRPC : GoVal → Except String GoVal
  | .vNil => Except.ok GoVal.vNil
  | .vString s =>
    if s = "" then Except.ok GoVal.vNil
    else
      match goTimeDecode s with
      | some ns => Except.ok (GoVal.vGoTime ns)
      | none => Except.error errMalformed
  | _ => Except.error errMalformed

/-- Modelled from the spec: the TimeStamp handling of the missing
`convertToJson` body; an absent (nil) timestamp becomes the empty
string, a native `time.Time` becomes the wire-format string. -/
def tsToJson : GoVal → GoVal
  | .vNil => GoVal.vString ""
  | .vGoTime ns => GoVal.vString (goTimeEncode ns)
  | v => v

/-- Modelled from the spec: the unexported `convertToGoRPC` body, which
the source declares through `ConvertToGoRPC`; it rewrites `Value` and
`TimeStamp` in place and leaves every other field unchanged. -/
def Metric.convertToGoRPC (m : Metric) : Except String Metric :=
  match convertValueToGoRPC m.Kind m.SubType m.Value with
  | Except.error e => Except.error e
  | Except.ok v =>
    match tsToGoRPC m.TimeStamp with
    | Except.error e => Except.error e
    | Except.ok ts => Except.ok { m with Value := v, TimeStamp := ts }

/-- ConvertToGoRPC changes this metric in place to be go rpc compatible
(`messages.Metric.ConvertToGoRPC`). -/
def Metric.ConvertToGoRPC (m : Metric) : Except String Metric := m.convertToGoRPC

/-- Modelled from the spec: the unexported `convertToJson` body, which
the source declares through `ConvertToJson`; its exported signature
returns no error, so it is total. -/
def Metric.convertToJson (m : Metric) : Metric :=
  { m with
    Value := convertValueToJson m.Kind m.SubType m.Value
    TimeStamp := tsToJson m.TimeStamp }

/-- ConvertToJson changes this metric in place to be json compatible
(`messages.Metric.ConvertToJson`). -/
def Metric.ConvertToJson (m : Metric) : Metric := m.convertToJson

/-- Whether a payload has the shape of a Go-RPC representation value for
the given Kind/SubType.  Only the kinds whose representation differs
between the two forms constrain the payload: for every other kind both
conversions are the identity on the payload, so every payload is
round-trippable there. -/
def valueFitsRPC (k st : TType) (v : GoVal) : Bool :=
  if k = TType.Time then
    match v with
    | .vGoTime _ => true
    | _ => false
  else if k = TType.Duration then
    match v with
    | .vGoDuration _ => true
    | _ => false
  else if k = TType.List ∧ st = TType.Time then
    match v with
    | .vListGoTime _ => true
    | _ => false
  else if k = TType.List ∧ st = TType.Duration then
    match v with
    | .vListGoDuration _ => true
    | _ => false
  else true

/-- Whether a payload has the shape of a JSON representation value for
the given Kind/SubType; time-like payloads must be canonical wire-format
strings (the strings the encoder can produce). -/
def valueFitsJson (k st : TType) (v : GoVal) : Bool :=
  if k = TType.Time ∨ k = TType.Duration then
    match v with
    | .vString s => canonB s
    | _ => false
  else if k = TType.List ∧ (st = TType.Time ∨ st = TType.Duration) then
    match v with
    | .vListString ss => ss.all canonB
    | _ => false
  else true

/-- Whether a payload is a valid Go-RPC `TimeStamp`: nil or a native
`time.Time`. -/
def tsFitsRPC : GoVal → Bool
  | .vNil => true
  | .vGoTime _ => true
  | _ => false

/-- Whether a payload is a valid JSON `TimeStamp`: the empty string or a
canonical wire-format string. -/
def tsFitsJson : GoVal → Bool
  | .vString s => s == "" || canonB s
  | _ => false

/-- Modelled from the spec: `types.Type.SafeZeroValue` (the `types`
package is not under src).  It yields the language-native zero for each
scalar kind, the canonical zero literal for the string-encoded time
kinds, an empty sequence for List (the element representation is not
observable in this fragment), and an unsupported-kind error for
`Unknown` and for the distribution kind, which the `types` package
cannot build. -/
def SafeZeroValue : TType → Except String GoVal
  | .Bool => Except.ok (GoVal.vBool false)
  | .Int8 => Except.ok (GoVal.vInt8 0)
  | .Int16 => Except.ok (GoVal.vInt16 0)
  | .Int32 => Except.ok (GoVal.vInt32 0)
  | .Int64 => Except.ok (GoVal.vInt64 0)
  | .Uint8 => Except.ok (GoVal.vUint8 0)
  | .Uint16 => Except.ok (GoVal.vUint16 0)
  | .Uint32 => Except.ok (GoVal.vUint32 0)
  | .Uint64 => Except.ok (GoVal.vUint64 0)
  | .Float32 => Except.ok (GoVal.vFloat32 0)
  | .Float64 => Except.ok (GoVal.vFloat64 0)
  | .String => Except.ok (GoVal.vString "")
  | .Time => Except.ok (GoVal.vString (goTimeEncode 0))
  | .Duration => Except.ok (GoVal.vString (goTimeEncode 0))
  | .GoTime => Except.ok (GoVal.vGoTime 0)
  | .GoDuration => Except.ok (GoVal.vGoDuration 0)
  | .List => Except.ok (GoVal.vListString [])
  | .Dist => Except.error "types: unsupported kind"
  | .Unknown => Except.error "types: unsupported kind"

/-- ZeroValue works like `types.Type.SafeZeroValue` but can also return
zero values for types in this package (`messages.ZeroValue`): the
distribution kind yields the typed nil `(*Distribution)(nil)`. -/
def ZeroValue (t : TType) : Except String GoVal :=
  if t = TType.Dist then Except.ok (GoVal.vDist none) else SafeZeroValue t

/-- The Count bookkeeping invariant of a Distribution: `Count` equals the
sum of the per-range counts. -/
def distInvariant (d : Distribution) : Prop :=
  d.Count = (d.Ranges.map RangeWithCount.Count).sum

/-- The concrete Go types registered with the gob encoder by the
`messages` package `init` function. -/
inductive GobType where
  | goTimeType
  | goDurationType
  | goTimeListType
  | goDurationListType
  | distPointerType
  deriving DecidableEq

/-- A single `gob.Register` call, modelled as recording the registered
concrete type. -/
def gobRegister (t : GobType) (reg : List GobType) : List GobType := reg ++ [t]

/-- The registrations performed by the `messages` package `init`
function, in source order: `time.Time`, `time.Duration`, `[]time.Time`,
`[]time.Duration`, `*Distribution`. -/
def initRegisteredTypes : List GobType :=
  gobRegister GobType.distPointerType
    (gobRegister GobType.goDurationListType
      (gobRegister GobType.goTimeListType
        (gobRegister GobType.goDurationType
          (gobRegister GobType.goTimeType []))))

/-- Modelled from the spec: the two process-wide health/readiness flags
behind the missing `setHealth`/`setReady` internals of the
`healthserver` package; the empty string is the reserved sentinel for
the healthy ("OK") state, any other value is the failing message. -/
structure HealthState where
  health : String
  ready : String
  deriving DecidableEq

/-- Modelled from the spec: the internal health flag setter declared but
not defined under src. -/
def setHealth (status : String) (st : HealthState) : HealthState :=
  { st with health := status }

/-- Modelled from the spec: the internal readiness flag setter declared
but not defined under src. -/
def setReady (status : String) (st : HealthState) : HealthState :=
  { st with ready := status }

/-- SetHealthy will make the /healthz HTTP handler respond with "OK"
(`healthserver.SetHealthy`).  A `none` result models an aborted
(panicking) call; this function has no abort site. -/
def SetHealthy (st : HealthState) : Option HealthState :=
  some (setHealth "" st)

/-- SetNotHealthy will make the /healthz HTTP handler respond with a 503
status followed by the status string; passing "" or "OK" aborts
(`healthserver.SetNotHealthy`). -/
def SetNotHealthy (status : String) (st : HealthState) : Option HealthState :=
  if status = "" ∨ status = "OK" then none
  else some (setHealth status st)

/-- SetNotReady will make the /readiness HTTP handler respond with a 503
status followed by the status string; passing "" or "OK" aborts
(`healthserver.SetNotReady`). -/
def SetNotReady (status : String) (st : HealthState) : Option HealthState :=
  if status = "" ∨ status = "OK" then none
  else some (setReady status st)

/-- SetReady will make the /readiness HTTP handler respond with "OK"
(`healthserver.SetReady`). -/
def SetReady (st : HealthState) : Option HealthState :=
  some (setReady "" st)

/-- A JSON-representation Metric with the negative duration literal
"-1.500000000" as value and the boundary timestamp literal
"0.000000000". -/
def mJsonDur : Metric :=
  { Path := "/proc/latency"
    Description := "request latency"
    Unit := "seconds"
    Kind := TType.Duration
    SubType := TType.Unknown
    Bits := 64
    Value := GoVal.vString "-1.500000000"
    TimeStamp := GoVal.vString "0.000000000"
    GroupId := 0 }

/-- The Go-RPC form of `mJsonDur`. -/
def mRpcDurConv : Metric :=
  { mJsonDur with
    Value := GoVal.vGoDuration (-1500000000)
    TimeStamp := GoVal.vGoTime 0 }

/-- A Go-RPC-representation Metric with a native negative duration and
the boundary epoch timestamp. -/
def mRpcDur : Metric :=
  { Path := "/proc/latency"
    Description := "request latency"
    Unit := "seconds"
    Kind := TType.Duration
    SubType := TType.Unknown
    Bits := 64
    Value := GoVal.vGoDuration (-1500000000)
    TimeStamp := GoVal.vGoTime 0
    GroupId := 0 }

/-- A Metric whose Kind/SubType pair is outside the dispatch table. -/
def mUnknownKind : Metric :=
  { Path := "/proc/mystery"
    Description := "unknown kind"
    Unit := "None"
    Kind := TType.Unknown
    SubType := TType.Unknown
    Bits := 0
    Value := GoVal.vBool true
    TimeStamp := GoVal.vString ""
    GroupId := 0 }

/-- A Time-kind Metric whose string value deviates from the exact wire
format (wrong fraction digit count). -/
def mBadTime : Metric :=
  { Path := "/proc/start/time"
    Description := "start time"
    Unit := "seconds"
    Kind := TType.Time
    SubType := TType.Unknown
    Bits := 0
    Value := GoVal.vString "1.5"
    TimeStamp := GoVal.vString ""
    GroupId := 0 }

/-- A concrete Distribution satisfying the Count invariant. -/
def dSample : Distribution :=
  { Min := 1
    Max := 7
    Average := 4
    Median := 4
    Sum := 20
    Count := 5
    Generation := 3
    IsNotCumulative := false
    Ranges := [{ Lower := 0, Upper := 5, Count := 2 }, { Lower := 5, Upper := 10, Count := 3 }] }

/-- A Distribution-kind Metric carrying `dSample`. -/
def mDistMetric : Metric :=
  { Path := "/proc/sizes"
    Description := "request sizes"
    Unit := "bytes"
    Kind := TType.Dist
    SubType := TType.Unknown
    Bits := 0
    Value := GoVal.vDist (some dSample)
    TimeStamp := GoVal.vNil
    GroupId := 2 }

/-- An initial health/readiness state. -/
def healthState0 : HealthState :=
  { health := "", ready := "not ready" }

/-! Helper lemmas about the decimal digit machinery. -/

theorem isDig_digitChar (d : Nat) : isDig (digitChar d) = true := by
  rcases d with _|_|_|_|_|_|_|_|_|n <;> rfl

theorem digitVal_digitChar (d : Nat) (h : d < 10) : digitVal (digitChar d) = d := by
  interval_cases d <;> rfl

theorem ne_dot_of_isDig {c : Char} (h : isDig c = true) : c ≠ '.' := by
  intro he
  subst he
  exact absurd h (by decide)

theorem ne_dash_of_isDig {c : Char} (h : isDig c = true) : c ≠ '-' := by
  intro he
  subst he
  exact absurd h (by decide)

theorem digitsValAux_eq (l : List Char) : ∀ a, digitsValAux a l = a * 10 ^ l.length + digitsVal l := by
  induction l with
  | nil => intro a; simp [digitsValAux, digitsVal]
  | cons c l ih =>
    intro a
    have h1 : digitsVal (c :: l) = digitVal c * 10 ^ l.length + digitsVal l := by
      show digitsValAux 0 (c :: l) = _
      simp only [digitsValAux]
      rw [ih (0 * 10 + digitVal c)]
      ring_nf
    simp only [digitsValAux]
    rw [ih (a * 10 + digitVal c), h1, List.length_cons]
    ring

theorem digitsVal_cons (c : Char) (l : List Char) :
    digitsVal (c :: l) = digitVal c * 10 ^ l.length + digitsVal l := by
  show digitsValAux 0 (c :: l) = _
  simp only [digitsValAux]
  rw [digitsValAux_eq l (0 * 10 + digitVal c)]
  ring_nf

theorem digitsValAux_append (xs ys : List Char) :
    ∀ a, digitsValAux a (xs ++ ys) = digitsValAux (digitsValAux a xs) ys := by
  induction xs with
  | nil => intro a; simp [digitsValAux]
  | cons c xs ih => intro a; simp only [List.cons_append, digitsValAux]; exact ih _

theorem digitsVal_append (xs ys : List Char) :
    digitsVal (xs ++ ys) = digitsVal xs * 10 ^ ys.length + digitsVal ys := by
  show digitsValAux 0 (xs ++ ys) = _
  rw [digitsValAux_append xs ys 0, digitsValAux_eq ys (digitsValAux 0 xs)]
  rfl

theorem natDigitsAux_val (fuel : Nat) :
    ∀ n, n < 10 ^ fuel → digitsVal (natDigitsAux fuel n) = n := by
  induction fuel with
  | zero =>
    intro n hn
    simp only [pow_zero, Nat.lt_one_iff] at hn
    subst hn
    rfl
  | succ fuel ih =>
    intro n hn
    by_cases h10 : n < 10
    · simp only [natDigitsAux, if_pos h10, digitsVal_cons, List.length_nil, pow_zero]
      rw [digitVal_digitChar n h10]
      simp [digitsVal, digitsValAux]
    · simp only [natDigitsAux, if_neg h10]
      rw [digitsVal_append, List.length_cons, List.length_nil]
      have hd : n / 10 < 10 ^ fuel := by
        rw [Nat.div_lt_iff_lt_mul (by norm_num)]
        calc n < 10 ^ (fuel + 1) := hn
        _ = 10 ^ fuel * 10 := by ring
      rw [ih (n / 10) hd, digitsVal_cons]
      show n / 10 * 10 ^ 1 + (digitVal (digitChar (n % 10)) * 10 ^ 0 + digitsVal []) = n
      rw [digitVal_digitChar (n % 10) (Nat.mod_lt n (by norm_num))]
      show n / 10 * 10 + (n % 10 * 1 + 0) = n
      omega

theorem natDigitsAux_isDig (fuel : Nat) :
    ∀ n c, c ∈ natDigitsAux fuel n → isDig c = true := by
  induction fuel with
  | zero => intro n c hc; simp [natDigitsAux] at hc
  | succ fuel ih =>
    intro n c hc
    by_cases h10 : n < 10
    · simp only [natDigitsAux, if_pos h10, List.mem_singleton] at hc
      subst hc
      exact isDig_digitChar n
    · simp only [natDigitsAux, if_neg h10, List.mem_append, List.mem_singleton] at hc
      rcases hc with hc | hc
      · exact ih (n / 10) c hc
      · subst hc; exact isDig_digitChar (n % 10)

theorem natDigitsAux_length (fuel : Nat) : ∀ n, (natDigitsAux fuel n).length ≤ fuel := by
  induction fuel with
  | zero => intro n; simp [natDigitsAux]
  | succ fuel ih =>
    intro n
    by_cases h10 : n < 10
    · simp [natDigitsAux, if_pos h10]
    · simp only [natDigitsAux, if_neg h10, List.length_append, List.length_cons,
        List.length_nil]
      have := ih (n / 10)
      omega

theorem natDigitsAux_ne_nil (fuel n : Nat) (h : 0 < fuel) : natDigitsAux fuel n ≠ [] := by
  match fuel with
  | fuel + 1 =>
    by_cases h10 : n < 10
    · simp [natDigitsAux, if_pos h10]
    · simp [natDigitsAux, if_neg h10]

theorem lt_ten_pow_succ (n : Nat) : n < 10 ^ (n + 1) := by
  calc n < 2 ^ n := Nat.lt_two_pow n
  _ ≤ 10 ^ n := Nat.pow_le_pow_left (by norm_num) n
  _ ≤ 10 ^ (n + 1) := Nat.pow_le_pow_right (by norm_num) (Nat.le_succ n)

theorem natDigits_val (n : Nat) : digitsVal (natDigits n) = n :=
  natDigitsAux_val (n + 1) n (lt_ten_pow_succ n)

theorem natDigits_isDig (n : Nat) {c : Char} (hc : c ∈ natDigits n) : isDig c = true :=
  natDigitsAux_isDig (n + 1) n c hc

theorem natDigits_ne_nil (n : Nat) : natDigits n ≠ [] :=
  natDigitsAux_ne_nil (n + 1) n (Nat.succ_pos n)

/-! Helper lemmas about padding, splitting and the signed codec. -/

theorem digitsVal_replicate_zero (k : Nat) : digitsVal (List.replicate k '0') = 0 := by
  induction k with
  | zero => rfl
  | succ k ih =>
    show digitsValAux 0 (List.replicate (k + 1) '0') = 0
    simp only [List.replicate_succ, digitsValAux]
    exact ih

theorem pad9_val (l : List Char) : digitsVal (pad9 l) = digitsVal l := by
  unfold pad9
  rw [digitsVal_append, digitsVal_replicate_zero]
  ring

theorem pad9_length (l : List Char) (h : l.length ≤ 9) : (pad9 l).length = 9 := by
  simp only [pad9, List.length_append, List.length_replicate]
  omega

theorem pad9_isDig (l : List Char) (h : ∀ c ∈ l, isDig c = true) :
    ∀ c ∈ pad9 l, isDig c = true := by
  intro c hc
  rcases List.mem_append.mp hc with hc | hc
  · rcases List.eq_of_mem_replicate hc with rfl
    rfl
  · exact h c hc

theorem splitDot_append (xs r : List Char) (h : ∀ c ∈ xs, c ≠ '.') :
    splitDot (xs ++ '.' :: r) = some (xs, r) := by
  induction xs with
  | nil => simp [splitDot]
  | cons c xs ih =>
    have hc : c ≠ '.' := h c (List.mem_cons_self c xs)
    have hrest : ∀ a ∈ xs, a ≠ '.' := fun a ha => h a (List.mem_cons_of_mem c ha)
    simp only [List.cons_append, splitDot, if_neg hc, List.append_eq, ih hrest]

theorem decodeUnsigned_encoded (q f : Nat) (hf : f < 10 ^ 9) :
    decodeUnsigned (natDigits q ++ '.' :: pad9 (natDigitsAux 9 f)) =
      some (q * 10 ^ 9 + f) := by
  have hdig : ∀ c ∈ natDigits q, c ≠ '.' :=
    fun c hc => ne_dot_of_isDig (natDigits_isDig q hc)
  unfold decodeUnsigned
  rw [splitDot_append (natDigits q) (pad9 (natDigitsAux 9 f)) hdig]
  have hne : (!(natDigits q).isEmpty) = true := by
    cases hq : natDigits q with
    | nil => exact absurd hq (natDigits_ne_nil q)
    | cons c l => rfl
  have hall : (natDigits q).all isDig = true :=
    List.all_eq_true.mpr fun c hc => natDigits_isDig q hc
  have hlen : (pad9 (natDigitsAux 9 f)).length = 9 :=
    pad9_length _ (natDigitsAux_length 9 f)
  have hfall : (pad9 (natDigitsAux 9 f)).all isDig = true :=
    List.all_eq_true.mpr (pad9_isDig _ fun c hc => natDigitsAux_isDig 9 f c hc)
  simp only [hne, hall, hfall, hlen, decide_True, Bool.and_true, Bool.true_and, if_true]
  rw [natDigits_val q, pad9_val, natDigitsAux_val 9 f hf]

theorem decodeChars_encodeChars (ns : Int) : decodeChars (encodeChars ns) = some ns := by
  have hmod : ns.natAbs % 10 ^ 9 < 10 ^ 9 := Nat.mod_lt _ (by norm_num)
  have hsplit : ns.natAbs / 10 ^ 9 * 10 ^ 9 + ns.natAbs % 10 ^ 9 = ns.natAbs :=
    Nat.div_add_mod' _ _
  by_cases hlt : ns < 0
  · have henc : encodeChars ns =
        '-' :: (natDigits (ns.natAbs / 10 ^ 9) ++
          '.' :: pad9 (natDigitsAux 9 (ns.natAbs % 10 ^ 9))) := by
      unfold encodeChars
      rw [if_pos hlt]
      rfl
    rw [henc]
    simp only [decodeChars, List.head?_cons, List.tail_cons, eq_self_iff_true, if_true]
    rw [decodeUnsigned_encoded _ _ hmod, hsplit]
    show some (-(ns.natAbs : Int)) = some ns
    congr 1
    omega
  · have henc : encodeChars ns =
        natDigits (ns.natAbs / 10 ^ 9) ++
          '.' :: pad9 (natDigitsAux 9 (ns.natAbs % 10 ^ 9)) := by
      unfold encodeChars
      rw [if_neg hlt]
      rfl
    rw [henc]
    cases hq : natDigits (ns.natAbs / 10 ^ 9) with
    | nil => exact absurd hq (natDigits_ne_nil _)
    | cons c l =>
      have hcdig : isDig c = true := by
        apply natDigits_isDig (ns.natAbs / 10 ^ 9)
        rw [hq]
        exact List.mem_cons_self c l
      have hcne : c ≠ '-' := ne_dash_of_isDig hcdig
      have hhead : ((c :: l) ++ '.' :: pad9 (natDigitsAux 9 (ns.natAbs % 10 ^ 9))).head? ≠
          some '-' := by
        simp only [List.cons_append, List.head?_cons, ne_eq, Option.some.injEq]
        exact hcne
      simp only [decodeChars, if_neg hhead]
      rw [← hq, decodeUnsigned_encoded _ _ hmod, hsplit]
      show some ((ns.natAbs : Int)) = some ns
      congr 1
      omega

theorem goTimeDecode_encode (ns : Int) : goTimeDecode (goTimeEncode ns) = some ns :=
  decodeChars_encodeChars ns

theorem canonB_encode (ns : Int) : canonB (goTimeEncode ns) = true := by
  unfold canonB
  rw [goTimeDecode_encode]
  exact beq_self_eq_true _

theorem canonB_spec {s : String} (h : canonB s = true) :
    ∃ ns, goTimeDecode s = some ns ∧ goTimeEncode ns = s := by
  unfold canonB at h
  cases hd : goTimeDecode s with
  | none => rw [hd] at h; exact absurd h (by simp)
  | some ns =>
    rw [hd] at h
    exact ⟨ns, rfl, eq_of_beq h⟩

theorem goTimeEncode_ne_empty (ns : Int) : goTimeEncode ns ≠ "" := by
  intro h
  have hd : encodeChars ns = [] := congrArg String.data h
  by_cases hlt : ns < 0
  · simp [encodeChars, if_pos hlt] at hd
  · simp only [encodeChars, if_neg hlt, List.nil_append] at hd
    rcases List.append_eq_nil.mp hd with ⟨h1, _⟩
    exact natDigits_ne_nil _ h1

theorem decodeAll_map_encode (l : List Int) : decodeAll (l.map goTimeEncode) = some l := by
  induction l with
  | nil => rfl
  | cons n l ih =>
    simp only [List.map_cons, decodeAll, goTimeDecode_encode, ih]

theorem decodeAll_canon (ss : List String) (h : ss.all canonB = true) :
    ∃ ns, decodeAll ss = some ns ∧ ns.map goTimeEncode = ss := by
  induction ss with
  | nil => exact ⟨[], rfl, rfl⟩
  | cons s ss ih =>
    rw [List.all_cons, Bool.and_eq_true] at h
    rcases canonB_spec h.1 with ⟨n, hdec, henc⟩
    rcases ih h.2 with ⟨ns, hall, hmap⟩
    refine ⟨n :: ns, ?_, ?_⟩
    · simp only [decodeAll, hdec, hall]
    · simp only [List.map_cons, henc, hmap]

/-! Helper lemmas about the TimeStamp and Value conversions. -/

theorem tsRoundTripRPC (ts : GoVal) (hf : tsFitsRPC ts = true) :
    tsToGoRPC (tsToJson ts) = Except.ok ts := by
  cases ts <;> simp [tsFitsRPC] at hf
  · rfl
  · next ns =>
    simp only [tsToJson, tsToGoRPC, if_neg (goTimeEncode_ne_empty ns), goTimeDecode_encode]

theorem tsRoundTripJson (ts : GoVal) (hf : tsFitsJson ts = true) :
    ∃ ts', tsToGoRPC ts = Except.ok ts' ∧ tsToJson ts' = ts := by
  cases ts <;> simp [tsFitsJson] at hf
  next s =>
  by_cases hs : s = ""
  · subst hs
    exact ⟨GoVal.vNil, rfl, rfl⟩
  · have hc : canonB s = true := hf.resolve_left hs
    rcases canonB_spec hc with ⟨ns, hdec, henc⟩
    refine ⟨GoVal.vGoTime ns, ?_, ?_⟩
    · simp only [tsToGoRPC, if_neg hs, hdec]
    · simp only [tsToJson, henc]

theorem valueRoundTripRPC (k st : TType) (v : GoVal)
    (ht : inDispatchTable k st = true) (hf : valueFitsRPC k st v = true) :
    convertValueToGoRPC k st (convertValueToJson k st v) = Except.ok v := by
  by_cases h1 : k = TType.Time
  · subst h1
    cases v <;> simp [valueFitsRPC] at hf
    next ns =>
    simp [convertValueToJson, convertValueToGoRPC, ht, goTimeToStr, strToGoTime,
      goTimeDecode_encode]
  · by_cases h2 : k = TType.Duration
    · subst h2
      cases v <;> simp [valueFitsRPC] at hf
      next ns =>
      simp [convertValueToJson, convertValueToGoRPC, ht, goDurationToStr, strToGoDuration,
        goTimeDecode_encode]
    · by_cases h3 : k = TType.List ∧ st = TType.Time
      · obtain ⟨rfl, rfl⟩ := h3
        cases v <;> simp [valueFitsRPC] at hf
        next xs =>
        simp [convertValueToJson, convertValueToGoRPC, ht, goTimeListToStr, strListToGoTime,
          decodeAll_map_encode]
      · by_cases h4 : k = TType.List ∧ st = TType.Duration
        · obtain ⟨rfl, rfl⟩ := h4
          cases v <;> simp [valueFitsRPC] at hf
          next xs =>
          simp [convertValueToJson, convertValueToGoRPC, ht, goDurationListToStr,
            strListToGoDuration, decodeAll_map_encode]
        · simp only [convertValueToJson, convertValueToGoRPC, if_neg h1, if_neg h2,
            if_neg h3, if_neg h4, ht, eq_self_iff_true, if_true]

theorem valueRoundTripJson (k st : TType) (v : GoVal)
    (ht : inDispatchTable k st = true) (hf : valueFitsJson k st v = true) :
    ∃ v', convertValueToGoRPC k st v = Except.ok v' ∧ convertValueToJson k st v' = v := by
  by_cases h1 : k = TType.Time ∨ k = TType.Duration
  · have hval : ∃ s, v = GoVal.vString s ∧ canonB s = true := by
      rcases h1 with rfl | rfl <;> cases v <;> simp [valueFitsJson] at hf <;>
        exact ⟨_, rfl, hf⟩
    rcases hval with ⟨s, rfl, hc⟩
    rcases canonB_spec hc with ⟨ns, hdec, henc⟩
    rcases h1 with rfl | rfl
    · refine ⟨GoVal.vGoTime ns, ?_, ?_⟩
      · simp [convertValueToGoRPC, ht, strToGoTime, hdec]
      · simp [convertValueToJson, goTimeToStr, henc]
    · refine ⟨GoVal.vGoDuration ns, ?_, ?_⟩
      · simp [convertValueToGoRPC, ht, strToGoDuration, hdec]
      · simp [convertValueToJson, goDurationToStr, henc]
  · by_cases h3 : k = TType.List ∧ (st = TType.Time ∨ st = TType.Duration)
    · obtain ⟨rfl, hst⟩ := h3
      have hval : ∃ ss, v = GoVal.vListString ss ∧ ∀ x ∈ ss, canonB x = true := by
        rcases hst with rfl | rfl <;> cases v <;> simp [valueFitsJson] at hf <;>
          exact ⟨_, rfl, hf⟩
      rcases hval with ⟨ss, rfl, hc⟩
      rcases decodeAll_canon ss (List.all_eq_true.mpr hc) with ⟨ns, hall, hmap⟩
      rcases hst with rfl | rfl
      · refine ⟨GoVal.vListGoTime ns, ?_, ?_⟩
        · simp [convertValueToGoRPC, ht, strListToGoTime, hall]
        · simp [convertValueToJson, goTimeListToStr, hmap]
      · refine ⟨GoVal.vListGoDuration ns, ?_, ?_⟩
        · simp [convertValueToGoRPC, ht, strListToGoDuration, hall]
        · simp [convertValueToJson, goDurationListToStr, hmap]
    · have hn1 : ¬k = TType.Time := fun h => h1 (Or.inl h)
      have hn2 : ¬k = TType.Duration := fun h => h1 (Or.inr h)
      have hn3 : ¬(k = TType.List ∧ st = TType.Time) := fun h => h3 ⟨h.1, Or.inl h.2⟩
      have hn4 : ¬(k = TType.List ∧ st = TType.Duration) := fun h => h3 ⟨h.1, Or.inr h.2⟩
      refine ⟨v, ?_, ?_⟩
      · simp only [convertValueToGoRPC, if_neg hn1, if_neg hn2, if_neg hn3, if_neg hn4,
          ht, eq_self_iff_true, if_true]
      · simp only [convertValueToJson, if_neg hn1, if_neg hn2, if_neg hn3, if_neg hn4]

/-! Metric-level helper lemmas. -/

theorem metricRoundTripRPC (m : Metric)
    (ht : inDispatchTable m.Kind m.SubType = true)
    (hv : valueFitsRPC m.Kind m.SubType m.Value = true)
    (hts : tsFitsRPC m.TimeStamp = true) :
    (m.ConvertToJson).ConvertToGoRPC = Except.ok m := by
  have hval := valueRoundTripRPC m.Kind m.SubType m.Value ht hv
  have hts' := tsRoundTripRPC m.TimeStamp hts
  show Metric.convertToGoRPC (Metric.convertToJson m) = Except.ok m
  unfold Metric.convertToGoRPC Metric.convertToJson
  simp only [hval, hts']

theorem metricRoundTripJson (m : Metric)
    (ht : inDispatchTable m.Kind m.SubType = true)
    (hv : valueFitsJson m.Kind m.SubType m.Value = true)
    (hts : tsFitsJson m.TimeStamp = true) :
    ∃ mg, m.ConvertToGoRPC = Except.ok mg ∧ mg.ConvertToJson = m := by
  rcases valueRoundTripJson m.Kind m.SubType m.Value ht hv with ⟨v', hv1, hv2⟩
  rcases tsRoundTripJson m.TimeStamp hts with ⟨ts', ht1, ht2⟩
  refine ⟨{ m with Value := v', TimeStamp := ts' }, ?_, ?_⟩
  · show Metric.convertToGoRPC m = _
    unfold Metric.convertToGoRPC
    simp only [hv1, ht1]
  · show Metric.convertToJson _ = m
    unfold Metric.convertToJson
    simp only [hv2, ht2]

theorem strToGoTime_error {v : GoVal} {e : String} (h : strToGoTime v = Except.error e) :
    e = errMalformed := by
  unfold strToGoTime at h
  split at h
  · split at h
    · exact absurd h (by simp)
    · exact (Except.error.inj h).symm
  · exact (Except.error.inj h).symm

theorem strToGoDuration_error {v : GoVal} {e : String}
    (h : strToGoDuration v = Except.error e) : e = errMalformed := by
  unfold strToGoDuration at h
  split at h
  · split at h
    · exact absurd h (by simp)
    · exact (Except.error.inj h).symm
  · exact (Except.error.inj h).symm

theorem strListToGoTime_error {v : GoVal} {e : String}
    (h : strListToGoTime v = Except.error e) : e = errMalformed := by
  unfold strListToGoTime at h
  split at h
  · split at h
    · exact absurd h (by simp)
    · exact (Except.error.inj h).symm
  · exact (Except.error.inj h).symm

theorem strListToGoDuration_error {v : GoVal} {e : String}
    (h : strListToGoDuration v = Except.error e) : e = errMalformed := by
  unfold strListToGoDuration at h
  split at h
  · split at h
    · exact absurd h (by simp)
    · exact (Except.error.inj h).symm
  · exact (Except.error.inj h).symm

theorem tsToGoRPC_error {v : GoVal} {e : String} (h : tsToGoRPC v = Except.error e) :
    e = errMalformed := by
  unfold tsToGoRPC at h
  split at h
  · exact absurd h (by simp)
  · split at h
    · exact absurd h (by simp)
    · split at h
      · exact absurd h (by simp)
      · exact (Except.error.inj h).symm
  · exact (Except.error.inj h).symm

theorem convertValueToGoRPC_error {k st : TType} {v : GoVal} {e : String}
    (h : convertValueToGoRPC k st v = Except.error e) :
    e = errUnsupported ∨ e = errMalformed := by
  unfold convertValueToGoRPC at h
  split at h
  · split at h
    · exact Or.inr (strToGoTime_error h)
    · split at h
      · exact Or.inr (strToGoDuration_error h)
      · split at h
        · exact Or.inr (strListToGoTime_error h)
        · split at h
          · exact Or.inr (strListToGoDuration_error h)
          · exact absurd h (by simp)
  · exact Or.inl (Except.error.inj h).symm

theorem convertToGoRPC_error {m : Metric} {e : String}
    (h : m.convertToGoRPC = Except.error e) :
    e = errUnsupported ∨ e = errMalformed := by
  unfold Metric.convertToGoRPC at h
  split at h
  · next heq => exact (Except.error.inj h) ▸ convertValueToGoRPC_error heq
  · split at h
    · next heq => exact Or.inr ((Except.error.inj h) ▸ tsToGoRPC_error heq)
    · exact absurd h (by simp)

theorem convertToGoRPC_frame {m m' : Metric} (h : m.convertToGoRPC = Except.ok m') :
    m'.Path = m.Path ∧ m'.Description = m.Description ∧ m'.Unit = m.Unit ∧
      m'.Kind = m.Kind ∧ m'.SubType = m.SubType ∧ m'.Bits = m.Bits ∧
      m'.GroupId = m.GroupId := by
  unfold Metric.convertToGoRPC at h
  split at h
  · exact absurd h (by simp)
  · split at h
    · exact absurd h (by simp)
    · have hm := Except.ok.inj h
      subst hm
      exact ⟨rfl, rfl, rfl, rfl, rfl, rfl, rfl⟩

theorem convertValueToJson_dist (k st : TType) (o : Option Distribution) :
    convertValueToJson k st (GoVal.vDist o) = GoVal.vDist o := by
  unfold convertValueToJson
  split
  · rfl
  · split
    · rfl
    · split
      · rfl
      · split
        · rfl
        · rfl

theorem convertValueToGoRPC_dist {k st : TType} {o : Option Distribution} {v' : GoVal}
    (h : convertValueToGoRPC k st (GoVal.vDist o) = Except.ok v') :
    v' = GoVal.vDist o := by
  unfold convertValueToGoRPC at h
  split at h
  · split at h
    · exact absurd h (by simp [strToGoTime])
    · split at h
      · exact absurd h (by simp [strToGoDuration])
      · split at h
        · exact absurd h (by simp [strListToGoTime])
        · split at h
          · exact absurd h (by simp [strListToGoDuration])
          · exact (Except.ok.inj h).symm
  · exact absurd h (by simp)

/-! Claim theorems. -/

/-- C1: for every Kind × SubType pair in the conversion dispatch table and
every representable sample value of a Metric, converting to the native
representation and back to JSON yields the original Metric, and converting
to JSON and back to native yields the original Metric (round trip in both
orders). -/
theorem C1_round_trip (m : Metric) (ht : inDispatchTable m.Kind m.SubType = true) :
    (valueFitsRPC m.Kind m.SubType m.Value = true → tsFitsRPC m.TimeStamp = true →
      (m.ConvertToJson).ConvertToGoRPC = Except.ok m) ∧
    (valueFitsJson m.Kind m.SubType m.Value = true → tsFitsJson m.TimeStamp = true →
      ∃ mg, m.ConvertToGoRPC = Except.ok mg ∧ mg.ConvertToJson = m) :=
  ⟨fun hv hts => metricRoundTripRPC m ht hv hts,
   fun hv hts => metricRoundTripJson m ht hv hts⟩

/-- C1 witness: the round trips at the boundary timestamp literal
"0.000000000" and the negative duration literal "-1.500000000", in both
directions. -/
theorem C1_round_trip_witness :
    (∃ mg, mJsonDur.ConvertToGoRPC = Except.ok mg ∧ mg.ConvertToJson = mJsonDur) ∧
    (mRpcDur.ConvertToJson).ConvertToGoRPC = Except.ok mRpcDur :=
  ⟨(C1_round_trip mJsonDur (by decide)).2 (by decide) (by decide),
   (C1_round_trip mRpcDur (by decide)).1 (by decide) (by decide)⟩

/-- C2: for every string s, SetNotHealthy s and SetNotReady s abort (panic)
exactly when s is the empty string or "OK"; for every other string they set
the corresponding failing state to message s and do not abort. -/
theorem C2_failing_setters (s : String) (st : HealthState) :
    (SetNotHealthy s st = none ↔ s = "" ∨ s = "OK") ∧
    (SetNotReady s st = none ↔ s = "" ∨ s = "OK") ∧
    (¬(s = "" ∨ s = "OK") →
      SetNotHealthy s st = some (setHealth s st) ∧
      SetNotReady s st = some (setReady s st)) := by
  unfold SetNotHealthy SetNotReady
  by_cases h : s = "" ∨ s = "OK"
  · simp [h]
  · simp [h]

/-- C2 witness: the failing setters at "db down" (no abort, state set), at
"" and at "OK" (abort). -/
theorem C2_failing_setters_witness :
    SetNotHealthy "db down" healthState0 = some (setHealth "db down" healthState0) ∧
    SetNotHealthy "" healthState0 = none ∧
    SetNotHealthy "OK" healthState0 = none ∧
    SetNotReady "" healthState0 = none ∧
    SetNotReady "OK" healthState0 = none :=
  ⟨((C2_failing_setters "db down" healthState0).2.2 (by decide)).1,
   (C2_failing_setters "" healthState0).1.mpr (Or.inl rfl),
   (C2_failing_setters "OK" healthState0).1.mpr (Or.inr rfl),
   (C2_failing_setters "" healthState0).2.1.mpr (Or.inl rfl),
   (C2_failing_setters "OK" healthState0).2.1.mpr (Or.inr rfl)⟩

/-- C4: ZeroValue on the Distribution kind returns the typed nil
distribution reference with no error, and that value is distinguishable
from a zero-filled Distribution struct. -/
theorem C4_zero_value_dist :
    ZeroValue TType.Dist = Except.ok (GoVal.vDist none) ∧
    GoVal.vDist none ≠
      GoVal.vDist (some (Distribution.mk 0 0 0 0 0 0 0 false [])) :=
  ⟨rfl, by decide⟩

/-- C5: both conversion directions rewrite only the Value field (and
TimeStamp) in place and leave Path, Description, Unit, Kind, SubType, Bits
and GroupId of the Metric unchanged. -/
theorem C5_frame (m : Metric) :
    (∀ m', m.ConvertToGoRPC = Except.ok m' →
      m'.Path = m.Path ∧ m'.Description = m.Description ∧ m'.Unit = m.Unit ∧
        m'.Kind = m.Kind ∧ m'.SubType = m.SubType ∧ m'.Bits = m.Bits ∧
        m'.GroupId = m.GroupId) ∧
    ((m.ConvertToJson).Path = m.Path ∧ (m.ConvertToJson).Description = m.Description ∧
      (m.ConvertToJson).Unit = m.Unit ∧ (m.ConvertToJson).Kind = m.Kind ∧
      (m.ConvertToJson).SubType = m.SubType ∧ (m.ConvertToJson).Bits = m.Bits ∧
      (m.ConvertToJson).GroupId = m.GroupId) :=
  ⟨fun _ h => convertToGoRPC_frame h,
   ⟨rfl, rfl, rfl, rfl, rfl, rfl, rfl⟩⟩

/-- C5 witness: the identity fields of the concrete duration metric are
unchanged by the native conversion. -/
theorem C5_frame_witness :
    mJsonDur.ConvertToGoRPC = Except.ok mRpcDurConv ∧
    mRpcDurConv.Kind = mJsonDur.Kind ∧ mRpcDurConv.SubType = mJsonDur.SubType ∧
    mRpcDurConv.Path = mJsonDur.Path :=
  ⟨rfl,
   ((C5_frame mJsonDur).1 mRpcDurConv rfl).2.2.2.1,
   ((C5_frame mJsonDur).1 mRpcDurConv rfl).2.2.2.2.1,
   ((C5_frame mJsonDur).1 mRpcDurConv rfl).1⟩

/-- C7: the package init registers the timestamp type, the duration type,
the list-of-timestamp and list-of-duration types, and the
distribution-pointer type with the transport's generic (gob) encoder. -/
theorem C7_init_registers :
    GobType.goTimeType ∈ initRegisteredTypes ∧
    GobType.goDurationType ∈ initRegisteredTypes ∧
    GobType.goTimeListType ∈ initRegisteredTypes ∧
    GobType.goDurationListType ∈ initRegisteredTypes ∧
    GobType.distPointerType ∈ initRegisteredTypes := by
  decide

/-- C9: ZeroValue returns an unsupported-kind error and no value for the
Unknown kind (the Kind enumeration is closed in this model, so there is no
value outside it). -/
theorem C9_zero_value_unknown :
    ZeroValue TType.Unknown = Except.error "types: unsupported kind" ∧
    ∀ v, ZeroValue TType.Unknown ≠ Except.ok v :=
  ⟨rfl, fun v h => by simp [ZeroValue, SafeZeroValue] at h⟩

/-- C9 witness: ZeroValue on Unknown at a concrete candidate value. -/
theorem C9_zero_value_unknown_witness :
    ZeroValue TType.Unknown = Except.error "types: unsupported kind" ∧
    ZeroValue TType.Unknown ≠ Except.ok (GoVal.vBool false) :=
  ⟨C9_zero_value_unknown.1, C9_zero_value_unknown.2 (GoVal.vBool false)⟩

/-- C10: SetHealthy and SetReady never abort: each unconditionally records
the healthy state by passing the reserved empty-string sentinel to the
internal flag setter, bypassing the check that makes the failing-state
setters abort on that very sentinel. -/
theorem C10_healthy_setters (st : HealthState) :
    SetHealthy st = some (setHealth "" st) ∧
    SetReady st = some (setReady "" st) ∧
    (SetHealthy st).isSome = true ∧
    (SetReady st).isSome = true ∧
    SetNotHealthy "" st = none ∧
    SetNotReady "" st = none := by
  refine ⟨rfl, rfl, rfl, rfl, ?_, ?_⟩ <;> simp [SetNotHealthy, SetNotReady]

theorem convertToGoRPC_ok_value {m mg : Metric} (h : m.convertToGoRPC = Except.ok mg) :
    convertValueToGoRPC m.Kind m.SubType m.Value = Except.ok mg.Value := by
  unfold Metric.convertToGoRPC at h
  split at h
  · exact absurd h (by simp)
  · next heq =>
    split at h
    · exact absurd h (by simp)
    · have hm := Except.ok.inj h
      subst hm
      exact heq

/-- C3 counterexample: a Metric whose Kind/SubType pair is outside the
dispatch table for which the ToJSON direction does not fail but passes the
value through unchanged (its exported signature returns no error). -/
theorem C3_counterexample :
    inDispatchTable mUnknownKind.Kind mUnknownKind.SubType = false ∧
    (mUnknownKind.ConvertToJson).Value = mUnknownKind.Value ∧
    mUnknownKind.ConvertToJson = mUnknownKind :=
  ⟨rfl, rfl, rfl⟩

/-- C3 amended: the ToNative direction (ConvertToGoRPC) fails with the
recoverable unsupported-kind error on every Kind/SubType pair outside the
dispatch table and with the recoverable malformed-literal error on every
Time/Duration string value deviating from the exact wire format, while the
ToJSON direction (ConvertToJson), whose signature returns no error, leaves
the value of a metric with no time-like Kind unchanged. -/
theorem C3_amended (m : Metric) (s : String) :
    (inDispatchTable m.Kind m.SubType = false →
      m.ConvertToGoRPC = Except.error errUnsupported) ∧
    (m.Kind ≠ TType.Time → m.Kind ≠ TType.Duration → m.Kind ≠ TType.List →
      (m.ConvertToJson).Value = m.Value) ∧
    (inDispatchTable m.Kind m.SubType = true →
      (m.Kind = TType.Time ∨ m.Kind = TType.Duration) → m.Value = GoVal.vString s →
      goTimeDecode s = none → m.ConvertToGoRPC = Except.error errMalformed) := by
  refine ⟨?_, ?_, ?_⟩
  · intro h
    have hval : convertValueToGoRPC m.Kind m.SubType m.Value = Except.error errUnsupported := by
      unfold convertValueToGoRPC
      rw [h]
      simp
    show Metric.convertToGoRPC m = _
    unfold Metric.convertToGoRPC
    simp only [hval]
  · intro h1 h2 h3
    have hn3 : ¬(m.Kind = TType.List ∧ m.SubType = TType.Time) := fun hc => h3 hc.1
    have hn4 : ¬(m.Kind = TType.List ∧ m.SubType = TType.Duration) := fun hc => h3 hc.1
    show (Metric.convertToJson m).Value = m.Value
    unfold Metric.convertToJson
    simp only [convertValueToJson, if_neg h1, if_neg h2, if_neg hn3, if_neg hn4]
  · intro ht hk hv hd
    have hval : convertValueToGoRPC m.Kind m.SubType m.Value = Except.error errMalformed := by
      rcases hk with hk | hk
      · rw [hk] at ht
        rw [hk, hv]
        simp [convertValueToGoRPC, ht, strToGoTime, hd]
      · rw [hk] at ht
        rw [hk, hv]
        simp [convertValueToGoRPC, ht, strToGoDuration, hd]
    show Metric.convertToGoRPC m = _
    unfold Metric.convertToGoRPC
    simp only [hval]

/-- C3 witness: the amended behaviour at the unknown-kind metric and at a
Time metric with the malformed literal "1.5" (wrong fraction digit
count). -/
theorem C3_amended_witness :
    mUnknownKind.ConvertToGoRPC = Except.error errUnsupported ∧
    (mUnknownKind.ConvertToJson).Value = mUnknownKind.Value ∧
    mBadTime.ConvertToGoRPC = Except.error errMalformed :=
  ⟨(C3_amended mUnknownKind "x").1 rfl,
   (C3_amended mUnknownKind "x").2.1 (by decide) (by decide) (by decide),
   (C3_amended mBadTime "1.5").2.2 rfl (Or.inl rfl) rfl rfl⟩

/-- C6: the Count invariant of a Distribution (Count equals the sum of the
per-range counts) is preserved by every mutation of this fragment: both
conversion directions leave a Distribution payload identical. -/
theorem C6_count_invariant (m : Metric) (d : Distribution)
    (hv : m.Value = GoVal.vDist (some d)) (hinv : distInvariant d) :
    (∀ d', (m.ConvertToJson).Value = GoVal.vDist (some d') → distInvariant d') ∧
    (∀ mg d', m.ConvertToGoRPC = Except.ok mg → mg.Value = GoVal.vDist (some d') →
      distInvariant d') := by
  constructor
  · intro d' h
    have hj : (m.ConvertToJson).Value = GoVal.vDist (some d) := by
      show convertValueToJson m.Kind m.SubType m.Value = _
      rw [hv]
      exact convertValueToJson_dist _ _ _
    rw [hj] at h
    have hd := Option.some.inj (GoVal.vDist.inj h)
    exact hd ▸ hinv
  · intro mg d' hok h
    have hval := convertToGoRPC_ok_value hok
    rw [hv] at hval
    have hmg := convertValueToGoRPC_dist hval
    rw [hmg] at h
    have hd := Option.some.inj (GoVal.vDist.inj h)
    exact hd ▸ hinv

/-- C6 witness: the invariant survives both conversions of a concrete
Distribution metric. -/
theorem C6_count_invariant_witness :
    distInvariant dSample ∧
    (mDistMetric.ConvertToJson).Value = GoVal.vDist (some dSample) ∧
    distInvariant dSample :=
  ⟨by unfold distInvariant; decide, rfl,
   (C6_count_invariant mDistMetric dSample rfl (by unfold distInvariant; decide)).1
     dSample rfl⟩

/-- C8: the distinguished metric-not-found sentinel is distinct from every
error either conversion or the zero-value resolver can produce, so a caller
can branch on non-existence against it. -/
theorem C8_not_found_sentinel (m : Metric) (t : TType) (e : String) :
    (m.ConvertToGoRPC = Except.error e → e ≠ ErrMetricNotFound) ∧
    (ZeroValue t = Except.error e → e ≠ ErrMetricNotFound) := by
  constructor
  · intro h
    rcases convertToGoRPC_error h with rfl | rfl <;> decide
  · intro h
    unfold ZeroValue at h
    split at h
    · exact absurd h (by simp)
    · have he : e = "types: unsupported kind" := by
        cases t <;> simp [SafeZeroValue] at h <;> exact h.symm
      rw [he]
      decide

/-- C8 witness: the sentinel differs from the concrete error produced on an
unsupported kind. -/
theorem C8_not_found_sentinel_witness :
    mUnknownKind.ConvertToGoRPC = Except.error errUnsupported ∧
    errUnsupported ≠ ErrMetricNotFound :=
  ⟨rfl, (C8_not_found_sentinel mUnknownKind TType.Unknown errUnsupported).1 rfl⟩
